import Mathlib

/-
Verification development for the research-digest generator.

A shallow embedding of the date-filtering, deduplication, and history-tracking
core of the repository (src/enhanced_rss_feeds.py, src/paper_tracker.py,
src/main_pipeline.py), followed by theorems settling the frozen claims.

Conventions of the embedding:
- Python ints are Lean Int; optional arguments are Option Int.
- Python truthiness in expressions such as
  "paper_month_fallback if paper_month_fallback else 1" is modelled by
  pyOrElse: both None and 0 are falsy for ints.
- The external dateutil parser is modelled as an oracle function
  String -> ParseOutcome; the exceptions the source catches (ValueError,
  TypeError) are the failure outcomes.
- File-system state for the history ledger is modelled as a sum type
  (missing / unparseable / parsed contents); the JSON dict backing the
  ledger is modelled as an association list with dict-style insert
  (replace value in place when the key is present, append otherwise).
-/

namespace ResearchDigest

/-! ## Date parsing: enhanced_rss_feeds.py, parse_date_from_rss (lines 52-73)

The source delegates to dateutil.parser.parse and catches ValueError and
TypeError, returning None. The external parser is modelled as an oracle
giving either a parsed (year, month) or one of the two caught exceptions. -/

/-- Outcome of the external dateutil parse call: a parsed date (we keep the
year and month fields the rest of the program reads), or one of the two
exception kinds the source catches. -/
inductive ParseOutcome where
  | success (year month : Int)
  | valueError
  | typeError
  deriving DecidableEq, Repr

/-- parse_date_from_rss: returns none when the input is falsy (None or the
empty string); otherwise calls the external parser and maps both caught
exception kinds to none. -/
def parse_date_from_rss (du : String → ParseOutcome) : Option String → Option (Int × Int)
  | none => none
  | some s =>
    if s = "" then none
    else
      match du s with
      | ParseOutcome.success y m => some (y, m)
      | ParseOutcome.valueError => none
      | ParseOutcome.typeError => none

/-! ## Range filter: enhanced_rss_feeds.py, is_in_date_range (lines 76-151) -/

/-- Python truthiness default for ints: "v if v else d" where v is an
optional int — None and 0 are falsy. -/
def pyOrElse (v : Option Int) (d : Int) : Int :=
  match v with
  | some x => if x = 0 then d else x
  | none => d

/-- Resolution of the candidate's effective (year, month) at the top of
is_in_date_range (lines 101-115): prefer the parsed date; else the fallback
year with the fallback month (truthiness-defaulted to 1); else unresolved.
In the source, the unresolved case returns False on both branches of the
start_month test, so it is modelled as a single none. -/
def resolveCandidate (paper_date : Option (Int × Int))
    (paper_year_fallback paper_month_fallback : Option Int) : Option (Int × Int) :=
  match paper_date with
  | some ym => some ym
  | none =>
    match paper_year_fallback with
    | some y => some (y, pyOrElse paper_month_fallback 1)
    | none => none

/-- Body of is_in_date_range once the candidate (year, month) is resolved
(lines 117-151): reject years before start_year; year-only mode when neither
month bound is set; otherwise compare year*12+month ordinals against the
effective [start, end] bounds, with the 2099-12 far-future end when no end
is given at all. -/
def rangeCheck (paper_year paper_month : Int) (start_year : Int)
    (start_month end_year end_month : Option Int) : Bool :=
  if paper_year < start_year then false
  else if start_month.isNone ∧ end_month.isNone then true
  else
    let effective_end_year :=
      if end_year.isNone ∧ end_month.isNone then 2099 else pyOrElse end_year start_year
    let effective_end_month :=
      if end_year.isNone ∧ end_month.isNone then 12 else pyOrElse end_month 12
    let effective_start_month := pyOrElse start_month 1
    let paper_value := paper_year * 12 + paper_month
    let start_value := start_year * 12 + effective_start_month
    let end_value := effective_end_year * 12 + effective_end_month
    decide (start_value ≤ paper_value ∧ paper_value ≤ end_value)

/-- is_in_date_range: resolve the candidate, then run the range check;
a wholly unresolvable candidate is excluded. -/
def is_in_date_range (paper_date : Option (Int × Int))
    (paper_year_fallback paper_month_fallback : Option Int)
    (start_year : Int) (start_month : Option Int := none)
    (end_year : Option Int := none) (end_month : Option Int := none) : Bool :=
  match resolveCandidate paper_date paper_year_fallback paper_month_fallback with
  | some (y, m) => rangeCheck y m start_year start_month end_year end_month
  | none => false

/-! ## Papers and aggregator deduplication:
enhanced_rss_feeds.py, fetch_papers_from_all_feeds (lines 386-411) -/

/-- The fields of a paper dict that the deduplication and tracking code
reads (doi, title, venue, year — year is str(year) in the source). -/
structure Paper where
  doi : String
  title : String
  venue : String
  year : String
  deriving DecidableEq, Repr

/-- ASCII model of Python lowercasing of one character. -/
def pyLowerChar (c : Char) : Char :=
  if 65 ≤ c.toNat ∧ c.toNat ≤ 90 then Char.ofNat (c.toNat + 32) else c

/-- ASCII whitespace, as stripped by Python strip(). -/
def isSpaceChar (c : Char) : Bool :=
  c = ' ' ∨ c = '\t' ∨ c = '\n' ∨ c = '\r' ∨ c = '\x0b' ∨ c = '\x0c'

/-- Strip leading and trailing whitespace characters from a character list. -/
def stripChars (l : List Char) : List Char :=
  ((l.dropWhile isSpaceChar).reverse.dropWhile isSpaceChar).reverse

/-- The normalization applied to titles before title-based deduplication
in the source: lowercase the title, then strip surrounding whitespace
(ASCII model of the Python string methods). -/
def normalizeTitle (s : String) : String :=
  String.mk (stripChars (s.data.map pyLowerChar))

/-- The deduplication loop of fetch_papers_from_all_feeds: iterate in fetch
order carrying the seen-DOI and seen-title sets; a paper with a non-empty
DOI is kept iff its DOI is unseen; a paper with an empty DOI is kept iff its
normalized title is non-empty (truthiness) and unseen. -/
def dedupPapers : List Paper → List String → List String → List Paper
  | [], _, _ => []
  | p :: rest, seenDois, seenTitles =>
    if p.doi ≠ "" then
      if seenDois.contains p.doi then
        dedupPapers rest seenDois seenTitles
      else
        p :: dedupPapers rest (p.doi :: seenDois) seenTitles
    else
      let t := normalizeTitle p.title
      if t ≠ "" ∧ ¬ seenTitles.contains t then
        p :: dedupPapers rest seenDois (t :: seenTitles)
      else
        dedupPapers rest seenDois seenTitles

/-- Entry point of the deduplication pass: both seen-sets start empty. -/
def dedupAll (papers : List Paper) : List Paper := dedupPapers papers [] []

/-! ## History tracker: paper_tracker.py -/

/-- One persisted ledger row (paper_tracker.py lines 51-57). -/
structure HistoryEntry where
  title : String
  processed_date : String
  doi : String
  venue : String
  year : String
  deriving DecidableEq, Repr

/-- The ledger: the JSON object mapping identifier to entry, modelled as an
association list in insertion order. -/
abbrev Ledger : Type := List (String × HistoryEntry)

/-- Dict membership test, as in the identifier-in-history check. -/
def ledgerContains (l : Ledger) (k : String) : Bool :=
  l.any (fun kv => kv.1 == k)

/-- Dict assignment of v at key k: replace the value in place when the key
is already bound, append a new binding otherwise. -/
def ledgerInsert (l : Ledger) (k : String) (v : HistoryEntry) : Ledger :=
  if ledgerContains l k then
    l.map (fun kv => if kv.1 == k then (k, v) else kv)
  else
    l ++ [(k, v)]

/-- Dict lookup at key k, as an Option. -/
def ledgerLookup (l : Ledger) (k : String) : Option HistoryEntry :=
  (l.find? (fun kv => kv.1 == k)).map (fun kv => kv.2)

/-- The identifier of a paper: DOI when non-empty (truthiness), else title
(paper_tracker.py lines 41-45). -/
def paperIdentifier (p : Paper) : String :=
  if p.doi ≠ "" then p.doi else p.title

/-- The ledger entry staged for a newly seen paper (lines 51-57). -/
def historyEntryOf (p : Paper) (today : String) : HistoryEntry :=
  { title := p.title, processed_date := today, doi := p.doi
    venue := p.venue, year := p.year }

/-- The loop of filter_new_papers: membership is tested against the ledger
as loaded at the start of the call (hist), while insertions go to the
updated copy (upd); kept papers accumulate in order. -/
def filterNewLoop : List Paper → Ledger → Ledger → String → List Paper × Ledger
  | [], _, upd, _ => ([], upd)
  | p :: rest, hist, upd, today =>
    let id := paperIdentifier p
    if ledgerContains hist id then
      filterNewLoop rest hist upd today
    else
      let r := filterNewLoop rest hist (ledgerInsert upd id (historyEntryOf p today)) today
      (p :: r.1, r.2)

/-- filter_new_papers (paper_tracker.py lines 29-61), with the ledger state
passed explicitly: returns the papers kept as new and the ledger that
save_history persists. -/
def filter_new_papers (papers : List Paper) (history : Ledger) (today : String) :
    List Paper × Ledger :=
  filterNewLoop papers history history today

/-- The entries of a ledger bound to a given key (a dict has at most one,
but the association-list model makes this a filter). -/
def keyEntries (u : Ledger) (k : String) : Ledger :=
  u.filter (fun kv => kv.1 == k)

/-- One iteration of the filter_new_papers loop acting on the updated
ledger copy: skip papers whose identifier is in the ledger loaded at the
start of the call, stage an entry for the others. -/
def trackStep (hist : Ledger) (today : String) (u : Ledger) (p : Paper) : Ledger :=
  if ledgerContains hist (paperIdentifier p) then u
  else ledgerInsert u (paperIdentifier p) (historyEntryOf p today)

/-- State of the backing file data/processed_papers.json as load_history
observes it: absent, present but not parseable as JSON, or parsed to a
ledger. -/
inductive FileState where
  | missing
  | unparseable
  | parsed (l : Ledger)

/-- load_history (paper_tracker.py lines 13-21): the parsed contents when
the file exists and parses; the empty dict when the file is absent or the
parse raises (bare except). -/
def load_history : FileState → Ledger
  | FileState.missing => []
  | FileState.unparseable => []
  | FileState.parsed l => l

/-! ## CLI entry points

main_pipeline.py's argument parser (lines 322-344) defines only --sample,
--query, --max-papers and --start-year; it has no end-year or end-month
flags at all. enhanced_rss_feeds.py's test entry (lines 447-466) accepts
--start-year, --start-month, --end-year, --end-month, --max-per-feed and
passes them directly to fetch_papers_from_all_feeds with no validation
step of any kind. -/

/-- The date-range flags of the enhanced_rss_feeds.py CLI. -/
structure CLIArgs where
  start_year : Int
  start_month : Option Int
  end_year : Option Int
  end_month : Option Int
  max_per_feed : Int
  deriving DecidableEq, Repr

/-- What the CLI does after argument parsing: exit with an error, or run
the fetch with the given flags. -/
inductive MainStep where
  | exitError
  | runFetch (start_year : Int) (start_month end_year end_month : Option Int)
      (max_per_feed : Int)
  deriving DecidableEq, Repr

/-- The body of the "if main" block of enhanced_rss_feeds.py: it
unconditionally calls fetch_papers_from_all_feeds with the parsed flags —
there is no validation of the date-range flags. -/
def enhancedFeedsMain (a : CLIArgs) : MainStep :=
  MainStep.runFetch a.start_year a.start_month a.end_year a.end_month a.max_per_feed

/-- The flags of main_pipeline.py's argument parser: it exposes no
end-year or end-month flag at all. -/
structure PipelineCLIArgs where
  sample : Bool
  query : String
  max_papers : Int
  start_year : Int
  deriving DecidableEq, Repr

/-! ## Theorems -/

/-- C2: a candidate with no parsed date and no fallback year is excluded by
is_in_date_range for every date range, including year-only ranges, whatever
the fallback month. -/
theorem claim2_unresolvable_always_excluded
    (paper_month_fallback : Option Int) (start_year : Int)
    (start_month end_year end_month : Option Int) :
    is_in_date_range none none paper_month_fallback start_year
      start_month end_year end_month = false := rfl

/-- C3: with start_year 2024, start_month 10, end_month 12 and no end_year,
a resolvable candidate is included exactly when its (year, month) is
October, November or December 2024; in particular January 2025 and
September 2024 are excluded. -/
theorem claim3_month_range_within_start_year
    (paper_date : Option (Int × Int)) (pyf pmf : Option Int) (y m : Int)
    (hres : resolveCandidate paper_date pyf pmf = some (y, m))
    (hm1 : 1 ≤ m) (hm2 : m ≤ 12) :
    is_in_date_range paper_date pyf pmf 2024 (some 10) none (some 12) = true ↔
      (y = 2024 ∧ 10 ≤ m ∧ m ≤ 12) := by
  simp only [is_in_date_range, hres, rangeCheck, pyOrElse, Option.isNone_some,
    Option.isNone_none, Bool.false_eq_true, and_true, and_false, if_false,
    decide_eq_true_eq]
  split_ifs with h1 h2 <;> simp_all <;> omega

/-- Witness for C3 at the concrete candidate November 2024. -/
theorem claim3_witness :
    is_in_date_range (some (2024, 11)) none none 2024 (some 10) none (some 12) = true :=
  (claim3_month_range_within_start_year (some (2024, 11)) none none 2024 11
    rfl (by decide) (by decide)).mpr (by decide)

/-- C4 counterexample: January 2100 has year at least 2025, yet the range
with start 2024-10 and no end excludes it, because the far-future end is
implemented as 2099-12. -/
theorem claim4_counterexample :
    (2025 : Int) ≤ 2100 ∧
      is_in_date_range (some (2100, 1)) none none 2024 (some 10) none none = false := by
  constructor
  · decide
  · rfl

/-- C4 amended: with start_year 2024, start_month 10 and no end at all, a
resolvable candidate is included exactly when it is October 2024 or later
and no later than December 2099: every month from 10 of 2024 and every
(year, month) with 2025 up to 2099, and nothing after 2099. -/
theorem claim4_start_month_onward
    (paper_date : Option (Int × Int)) (pyf pmf : Option Int) (y m : Int)
    (hres : resolveCandidate paper_date pyf pmf = some (y, m))
    (hm1 : 1 ≤ m) (hm2 : m ≤ 12) :
    is_in_date_range paper_date pyf pmf 2024 (some 10) none none = true ↔
      ((y = 2024 ∧ 10 ≤ m) ∨ (2025 ≤ y ∧ y ≤ 2099)) := by
  simp only [is_in_date_range, hres, rangeCheck, pyOrElse, Option.isNone_some,
    Option.isNone_none, Bool.false_eq_true, and_true, and_false, if_false,
    decide_eq_true_eq]
  split_ifs with h1 h2 <;> simp_all <;> omega

/-- Witness for C4 at the concrete candidate March 2026. -/
theorem claim4_witness :
    is_in_date_range (some (2026, 3)) none none 2024 (some 10) none none = true :=
  (claim4_start_month_onward (some (2026, 3)) none none 2026 3
    rfl (by decide) (by decide)).mpr (by decide)

/-- C7 counterexample: the enhanced_rss_feeds CLI given end_month 12 with
no end_year, and given end_year 2020 below start_year 2024, does not exit
with an error in either case — it proceeds straight to fetching. -/
theorem claim7_counterexample :
    enhancedFeedsMain ⟨2024, none, none, some 12, 5⟩ ≠ MainStep.exitError ∧
      enhancedFeedsMain ⟨2024, none, some 2020, none, 5⟩ ≠ MainStep.exitError := by
  decide

/-- C7 amended: the CLI performs no validation of the date-range flags at
all — for every flag combination, including end_month without end_year and
end_year below start_year, it runs the fetch with the flags exactly as
parsed and never exits with an error. -/
theorem claim7_cli_never_validates (a : CLIArgs) :
    enhancedFeedsMain a =
        MainStep.runFetch a.start_year a.start_month a.end_year a.end_month
          a.max_per_feed ∧
      enhancedFeedsMain a ≠ MainStep.exitError := by
  refine ⟨rfl, ?_⟩
  simp [enhancedFeedsMain]

/-- Helper: the contrapositive of a Boolean monotonicity implication. -/
lemma bool_imp_contra {a b : Bool} (h : a = true → b = true) (hb : b = false) :
    a = false := by
  cases ha : a
  · rfl
  · simp [h ha] at hb

/-- Removing start_month from an active month filter can only widen the
range: an included candidate stays included (start_month at least 1). -/
lemma rangeCheck_drop_start_month (y m sy smv : Int) (ey em : Option Int)
    (hsmv : 1 ≤ smv) :
    rangeCheck y m sy (some smv) ey em = true →
      rangeCheck y m sy none ey em = true := by
  intro h
  simp only [rangeCheck, pyOrElse, Option.isNone_some, Option.isNone_none] at h ⊢
  cases ey <;> cases em <;> simp_all <;> split_ifs at h ⊢ <;>
    first
      | rfl
      | omega

/-- Removing end_month can only widen the range, as long as start_year does
not exceed the 2099 far-future sentinel: an included candidate stays
included. -/
lemma rangeCheck_drop_end_month (y m sy emv : Int) (sm ey : Option Int)
    (hsy : sy ≤ 2099) (hemv1 : 1 ≤ emv) (hemv2 : emv ≤ 12) :
    rangeCheck y m sy sm ey (some emv) = true →
      rangeCheck y m sy sm ey none = true := by
  intro h
  simp only [rangeCheck, pyOrElse, Option.isNone_some, Option.isNone_none] at h ⊢
  cases sm <;> cases ey <;> simp_all <;> split_ifs at h ⊢ <;>
    first
      | rfl
      | omega

/-- C1 counterexample: widening by removing end_year is not monotone, and
narrowing by adding end_month is not antitone. June 2024 is included in
the range 2024-05 to 2025-03, but removing end_year excludes it (the end
collapses to 2024-03); June 2100 is excluded from the unbounded range
starting 2100-05 (the far-future end is 2099-12), but adding end_month 12
includes it. -/
theorem claim1_counterexample :
    (is_in_date_range (some (2024, 6)) none none 2024 (some 5) (some 2025) (some 3)
        = true ∧
      is_in_date_range (some (2024, 6)) none none 2024 (some 5) none (some 3)
        = false) ∧
    (is_in_date_range (some (2100, 6)) none none 2100 (some 5) none none
        = false ∧
      is_in_date_range (some (2100, 6)) none none 2100 (some 5) none (some 12)
        = true) := by
  decide

/-- C1 amended: is_in_date_range is monotone with respect to removing the
start_month or end_month bound (and antitone with respect to adding them),
for month bounds in 1..12 and start_year at most 2099; the analogous
property fails for end_year, as the counterexample shows. -/
theorem claim1_month_bound_monotonicity
    (pd : Option (Int × Int)) (pyf pmf : Option Int)
    (sy smv emv : Int) (sm ey em : Option Int)
    (hsy : sy ≤ 2099) (hsmv : 1 ≤ smv) (hemv1 : 1 ≤ emv) (hemv2 : emv ≤ 12) :
    (is_in_date_range pd pyf pmf sy (some smv) ey em = true →
      is_in_date_range pd pyf pmf sy none ey em = true) ∧
    (is_in_date_range pd pyf pmf sy sm ey (some emv) = true →
      is_in_date_range pd pyf pmf sy sm ey none = true) ∧
    (is_in_date_range pd pyf pmf sy none ey em = false →
      is_in_date_range pd pyf pmf sy (some smv) ey em = false) ∧
    (is_in_date_range pd pyf pmf sy sm ey none = false →
      is_in_date_range pd pyf pmf sy sm ey (some emv) = false) := by
  have hsm : is_in_date_range pd pyf pmf sy (some smv) ey em = true →
      is_in_date_range pd pyf pmf sy none ey em = true := by
    cases hres : resolveCandidate pd pyf pmf with
    | none => simp [is_in_date_range, hres]
    | some ym =>
      simp only [is_in_date_range, hres]
      exact rangeCheck_drop_start_month ym.1 ym.2 sy smv ey em hsmv
  have hem : is_in_date_range pd pyf pmf sy sm ey (some emv) = true →
      is_in_date_range pd pyf pmf sy sm ey none = true := by
    cases hres : resolveCandidate pd pyf pmf with
    | none => simp [is_in_date_range, hres]
    | some ym =>
      simp only [is_in_date_range, hres]
      exact rangeCheck_drop_end_month ym.1 ym.2 sy emv sm ey hsy hemv1 hemv2
  exact ⟨hsm, hem, bool_imp_contra hsm, bool_imp_contra hem⟩

/-- Witness for C1 at a concrete candidate: July 2024 is included for the
range 2024-05 to 2024-09, and stays included after the end_month bound is
removed. -/
theorem claim1_witness :
    is_in_date_range (some (2024, 7)) none none 2024 (some 5) none none = true :=
  (claim1_month_bound_monotonicity (some (2024, 7)) none none 2024 5 9
    (some 5) none none (by decide) (by decide) (by decide) (by decide)).2.1
    (by decide)

/-- C9: parse_date_from_rss returns none on a missing string, on the empty
string, and on any string for which the external parser fails with one of
the caught exception kinds; the embedding is a total function, so no
exception escapes. -/
theorem claim9_parse_failures_give_none
    (du : String → ParseOutcome) (s : String) :
    parse_date_from_rss du none = none ∧
      parse_date_from_rss du (some "") = none ∧
      ((du s = ParseOutcome.valueError ∨ du s = ParseOutcome.typeError) →
        parse_date_from_rss du (some s) = none) := by
  refine ⟨rfl, rfl, fun h => ?_⟩
  by_cases hs : s = ""
  · simp [parse_date_from_rss, hs]
  · rcases h with h | h <;> simp [parse_date_from_rss, hs, h]

/-- Witness for C9 with a parser that always fails with ValueError, on a
concrete garbage string. -/
theorem claim9_witness :
    parse_date_from_rss (fun _ => ParseOutcome.valueError) (some "not a date") = none :=
  (claim9_parse_failures_give_none (fun _ => ParseOutcome.valueError)
    "not a date").2.2 (Or.inl rfl)

/-! ### Ledger and tracker lemmas -/

/-- A ledger does not contain a key exactly when it has no entry for it. -/
lemma ledgerContains_eq_false_iff (u : Ledger) (k : String) :
    ledgerContains u k = false ↔ keyEntries u k = [] := by
  simp [ledgerContains, keyEntries, List.filter_eq_nil_iff, List.any_eq_true]

/-- A ledger contains a key exactly when it has an entry for it. -/
lemma ledgerContains_eq_true_iff (u : Ledger) (k : String) :
    ledgerContains u k = true ↔ keyEntries u k ≠ [] := by
  rw [← Bool.not_eq_false, not_iff_not]
  exact ledgerContains_eq_false_iff u k

/-- Inserting a fresh key appends exactly one entry for it. -/
lemma keyEntries_insert_fresh (u : Ledger) (k : String) (v : HistoryEntry)
    (h : ledgerContains u k = false) :
    keyEntries (ledgerInsert u k v) k = [(k, v)] := by
  have h0 : keyEntries u k = [] := (ledgerContains_eq_false_iff u k).mp h
  unfold keyEntries at h0 ⊢
  simp only [ledgerInsert, h, Bool.false_eq_true, if_false]
  rw [List.filter_append, h0]
  simp

/-- After a replace-style map at key k, the entries for k are all (k, v). -/
lemma keyEntries_map_replace (u : Ledger) (k : String) (v : HistoryEntry) :
    keyEntries (u.map (fun kv => if kv.1 == k then (k, v) else kv)) k =
      (keyEntries u k).map (fun _ => (k, v)) := by
  induction u with
  | nil => rfl
  | cons a u ih =>
    simp only [keyEntries, List.map_cons, List.filter_cons] at ih ⊢
    by_cases ha : a.1 = k
    · simp_all
    · simp_all

/-- Overwriting the single entry of a bound key leaves exactly the new
entry. -/
lemma keyEntries_insert_replace (u : Ledger) (k : String) (v w : HistoryEntry)
    (h : keyEntries u k = [(k, w)]) :
    keyEntries (ledgerInsert u k v) k = [(k, v)] := by
  have hc : ledgerContains u k = true := by
    rw [ledgerContains_eq_true_iff, h]
    simp
  simp only [ledgerInsert, hc, if_true]
  rw [keyEntries_map_replace, h]
  rfl

/-- A replace-style map at one key does not change the entries of another
key. -/
lemma keyEntries_map_replace_other (u : Ledger) (k kp : String) (v : HistoryEntry)
    (hne : kp ≠ k) :
    keyEntries (u.map (fun kv => if kv.1 == kp then (kp, v) else kv)) k =
      keyEntries u k := by
  have hkk : ¬ k = kp := fun h => hne h.symm
  induction u with
  | nil => rfl
  | cons a u ih =>
    simp only [keyEntries, List.map_cons, List.filter_cons] at ih ⊢
    by_cases ha : a.1 = kp
    · simp_all
    · simp_all

/-- Inserting at one key does not change the entries of another key. -/
lemma keyEntries_insert_other (u : Ledger) (k kp : String) (v : HistoryEntry)
    (hne : kp ≠ k) :
    keyEntries (ledgerInsert u kp v) k = keyEntries u k := by
  unfold ledgerInsert
  by_cases hc : ledgerContains u kp
  · simp only [hc, if_true]
    exact keyEntries_map_replace_other u k kp v hne
  · simp only [hc, if_false]
    simp [keyEntries, List.filter_append, hne]

/-- Inserting a key makes the ledger contain it. -/
lemma ledgerContains_insert_self (u : Ledger) (k : String) (v : HistoryEntry) :
    ledgerContains (ledgerInsert u k v) k = true := by
  by_cases h : ledgerContains u k
  · rw [ledgerContains_eq_true_iff]
    simp only [ledgerInsert, h, if_true]
    rw [keyEntries_map_replace]
    intro hnil
    rw [List.map_eq_nil_iff] at hnil
    rw [ledgerContains_eq_true_iff] at h
    exact h hnil
  · rw [ledgerContains_eq_true_iff,
      keyEntries_insert_fresh u k v (by simpa using h)]
    simp

/-- Insertion preserves containment of every key. -/
lemma ledgerContains_insert_mono (u : Ledger) (k kp : String) (v : HistoryEntry)
    (h : ledgerContains u k = true) :
    ledgerContains (ledgerInsert u kp v) k = true := by
  by_cases he : kp = k
  · subst he
    exact ledgerContains_insert_self u kp v
  · rw [ledgerContains_eq_true_iff, keyEntries_insert_other u k kp v he]
    rwa [ledgerContains_eq_true_iff] at h

/-- The papers returned by the filter_new_papers loop are exactly the input
papers whose identifier is not in the ledger loaded at the start, in their
original order. -/
lemma filterNewLoop_fst (papers : List Paper) (hist upd : Ledger) (today : String) :
    (filterNewLoop papers hist upd today).1 =
      papers.filter (fun p => ! ledgerContains hist (paperIdentifier p)) := by
  induction papers generalizing upd with
  | nil => rfl
  | cons p rest ih =>
    by_cases h : ledgerContains hist (paperIdentifier p) <;>
      simp [filterNewLoop, List.filter_cons, h, ih]

/-- The ledger produced by the filter_new_papers loop is a fold of
trackStep over the batch. -/
lemma filterNewLoop_snd (papers : List Paper) (hist upd : Ledger) (today : String) :
    (filterNewLoop papers hist upd today).2 =
      papers.foldl (trackStep hist today) upd := by
  induction papers generalizing upd with
  | nil => rfl
  | cons p rest ih =>
    by_cases h : ledgerContains hist (paperIdentifier p) <;>
      simp [filterNewLoop, trackStep, h, ih]

/-- Folding trackStep over papers none of which carry key k leaves the
entries of k unchanged. -/
lemma keyEntries_foldl_untouched (papers : List Paper) (hist : Ledger)
    (today : String) (u : Ledger) (k : String)
    (h : ∀ q ∈ papers, paperIdentifier q ≠ k) :
    keyEntries (papers.foldl (trackStep hist today) u) k = keyEntries u k := by
  induction papers generalizing u with
  | nil => rfl
  | cons p rest ih =>
    have hp : paperIdentifier p ≠ k := h p (by simp)
    have hrest : ∀ q ∈ rest, paperIdentifier q ≠ k := fun q hq => h q (by simp [hq])
    rw [List.foldl_cons, ih _ hrest]
    unfold trackStep
    by_cases hc : ledgerContains hist (paperIdentifier p)
    · simp [hc]
    · simp only [hc, if_false, Bool.false_eq_true]
      exact keyEntries_insert_other u k (paperIdentifier p) _ hp

/-- Folding trackStep preserves containment of any already-present key. -/
lemma ledgerContains_foldl_mono (papers : List Paper) (hist : Ledger)
    (today : String) (u : Ledger) (k : String)
    (h : ledgerContains u k = true) :
    ledgerContains (papers.foldl (trackStep hist today) u) k = true := by
  induction papers generalizing u with
  | nil => exact h
  | cons p rest ih =>
    rw [List.foldl_cons]
    apply ih
    unfold trackStep
    by_cases hc : ledgerContains hist (paperIdentifier p)
    · simpa [hc]
    · simp only [hc, if_false, Bool.false_eq_true]
      exact ledgerContains_insert_mono u k _ _ h

/-- After the fold, the identifier of every batch paper that was new with
respect to the loaded ledger is contained in the resulting ledger. -/
lemma ledgerContains_foldl_of_mem (papers : List Paper) (hist : Ledger)
    (today : String) (u : Ledger) (p : Paper) (hp : p ∈ papers)
    (hnew : ledgerContains hist (paperIdentifier p) = false) :
    ledgerContains (papers.foldl (trackStep hist today) u)
      (paperIdentifier p) = true := by
  induction papers generalizing u with
  | nil => cases hp
  | cons q rest ih =>
    rcases List.mem_cons.mp hp with hq | hq
    · subst hq
      rw [List.foldl_cons]
      apply ledgerContains_foldl_mono
      unfold trackStep
      rw [hnew]
      simp only [Bool.false_eq_true, if_false]
      exact ledgerContains_insert_self u _ _
    · rw [List.foldl_cons]
      exact ih _ hq

/-- C6: if no identifier of the batch is in the stored ledger, the first
filter_new_papers call returns the whole batch in order, and a second call
on the ledger the first call persisted returns the empty list. -/
theorem claim6_history_filter_idempotent (papers : List Paper) (hist : Ledger)
    (today today2 : String)
    (h : ∀ p ∈ papers, ledgerContains hist (paperIdentifier p) = false) :
    (filter_new_papers papers hist today).1 = papers ∧
      (filter_new_papers papers (filter_new_papers papers hist today).2
        today2).1 = [] := by
  constructor
  · rw [filter_new_papers, filterNewLoop_fst]
    apply List.filter_eq_self.mpr
    intro a ha
    simp [h a ha]
  · rw [filter_new_papers, filterNewLoop_fst]
    apply List.filter_eq_nil_iff.mpr
    intro a ha
    rw [filter_new_papers, filterNewLoop_snd]
    simp [ledgerContains_foldl_of_mem papers hist today hist a ha (h a ha)]

/-- Witness for C6 on a one-paper batch against the empty ledger. -/
theorem claim6_witness :
    (filter_new_papers [Paper.mk "10.1/a" "T1" "V1" "2024"] [] "2025-01-01").1
        = [Paper.mk "10.1/a" "T1" "V1" "2024"] ∧
      (filter_new_papers [Paper.mk "10.1/a" "T1" "V1" "2024"]
        (filter_new_papers [Paper.mk "10.1/a" "T1" "V1" "2024"] []
          "2025-01-01").2 "2025-01-02").1 = [] :=
  claim6_history_filter_idempotent [Paper.mk "10.1/a" "T1" "V1" "2024"] []
    "2025-01-01" "2025-01-02" (fun _ _ => rfl)

/-- C8: load_history yields the empty ledger when the backing file is
missing or unparseable, and a subsequent filter_new_papers call on that
empty ledger treats every input paper as new. -/
theorem claim8_load_history_fail_safe (papers : List Paper) (today : String) :
    load_history FileState.missing = [] ∧
      load_history FileState.unparseable = [] ∧
      (filter_new_papers papers (load_history FileState.missing) today).1
        = papers ∧
      (filter_new_papers papers (load_history FileState.unparseable) today).1
        = papers := by
  refine ⟨rfl, rfl, ?_, ?_⟩ <;>
  · rw [load_history, filter_new_papers, filterNewLoop_fst]
    apply List.filter_eq_self.mpr
    intro a _
    rfl

/-- C10: membership is tested only against the ledger as loaded: in a batch
holding two papers with the same identifier, new to the stored ledger and
carried by no other batch paper, both papers are returned as new, and the
persisted ledger holds exactly one entry for that identifier, namely the
entry staged for the later paper. -/
theorem claim10_membership_against_loaded_ledger
    (pre mid post : List Paper) (p1 p2 : Paper) (hist : Ledger) (today : String)
    (hid : paperIdentifier p1 = paperIdentifier p2)
    (hnew : ledgerContains hist (paperIdentifier p1) = false)
    (honly : ∀ q ∈ pre ++ mid ++ post, paperIdentifier q ≠ paperIdentifier p1) :
    p1 ∈ (filter_new_papers (pre ++ p1 :: (mid ++ p2 :: post)) hist today).1 ∧
      p2 ∈ (filter_new_papers (pre ++ p1 :: (mid ++ p2 :: post)) hist today).1 ∧
      keyEntries (filter_new_papers (pre ++ p1 :: (mid ++ p2 :: post)) hist
          today).2 (paperIdentifier p1)
        = [(paperIdentifier p1, historyEntryOf p2 today)] := by
  have hpre : ∀ q ∈ pre, paperIdentifier q ≠ paperIdentifier p1 :=
    fun q hq => honly q (by simp [hq])
  have hmid : ∀ q ∈ mid, paperIdentifier q ≠ paperIdentifier p1 :=
    fun q hq => honly q (by simp [hq])
  have hpost : ∀ q ∈ post, paperIdentifier q ≠ paperIdentifier p1 :=
    fun q hq => honly q (by simp [hq])
  have hnew2 : ledgerContains hist (paperIdentifier p2) = false := hid ▸ hnew
  refine ⟨?_, ?_, ?_⟩
  · rw [filter_new_papers, filterNewLoop_fst]
    apply List.mem_filter.mpr
    constructor
    · simp
    · simp [hnew]
  · rw [filter_new_papers, filterNewLoop_fst]
    apply List.mem_filter.mpr
    constructor
    · simp
    · simp [hnew2]
  · rw [filter_new_papers, filterNewLoop_snd]
    rw [List.foldl_append, List.foldl_cons, List.foldl_append, List.foldl_cons]
    have h0 : keyEntries (pre.foldl (trackStep hist today) hist)
        (paperIdentifier p1) = [] := by
      rw [keyEntries_foldl_untouched pre hist today hist _ hpre]
      exact (ledgerContains_eq_false_iff hist _).mp hnew
    have hc0 : ledgerContains (pre.foldl (trackStep hist today) hist)
        (paperIdentifier p1) = false :=
      (ledgerContains_eq_false_iff _ _).mpr h0
    have h1 : keyEntries (trackStep hist today
        (pre.foldl (trackStep hist today) hist) p1) (paperIdentifier p1)
        = [(paperIdentifier p1, historyEntryOf p1 today)] := by
      unfold trackStep
      rw [hnew]
      simp only [Bool.false_eq_true, if_false]
      exact keyEntries_insert_fresh _ _ _ hc0
    have h2 : keyEntries (mid.foldl (trackStep hist today)
        (trackStep hist today (pre.foldl (trackStep hist today) hist) p1))
        (paperIdentifier p1)
        = [(paperIdentifier p1, historyEntryOf p1 today)] := by
      rw [keyEntries_foldl_untouched mid hist today _ _ hmid]
      exact h1
    have h3 : keyEntries (trackStep hist today
        (mid.foldl (trackStep hist today)
          (trackStep hist today (pre.foldl (trackStep hist today) hist) p1)) p2)
        (paperIdentifier p1)
        = [(paperIdentifier p1, historyEntryOf p2 today)] := by
      unfold trackStep
      rw [hnew2]
      simp only [Bool.false_eq_true, if_false]
      rw [← hid]
      exact keyEntries_insert_replace _ _ _ _ h2
    rw [keyEntries_foldl_untouched post hist today _ _ hpost]
    exact h3

/-- Witness for C10 on a concrete two-paper batch sharing one DOI. -/
theorem claim10_witness :
    Paper.mk "10.2/x" "T1" "V1" "2024" ∈
        (filter_new_papers ([] ++ Paper.mk "10.2/x" "T1" "V1" "2024" ::
          ([] ++ Paper.mk "10.2/x" "T2" "V2" "2024" :: [])) [] "2025-01-01").1 ∧
      Paper.mk "10.2/x" "T2" "V2" "2024" ∈
        (filter_new_papers ([] ++ Paper.mk "10.2/x" "T1" "V1" "2024" ::
          ([] ++ Paper.mk "10.2/x" "T2" "V2" "2024" :: [])) [] "2025-01-01").1 ∧
      keyEntries (filter_new_papers ([] ++ Paper.mk "10.2/x" "T1" "V1" "2024" ::
          ([] ++ Paper.mk "10.2/x" "T2" "V2" "2024" :: [])) [] "2025-01-01").2
          (paperIdentifier (Paper.mk "10.2/x" "T1" "V1" "2024"))
        = [(paperIdentifier (Paper.mk "10.2/x" "T1" "V1" "2024"),
            historyEntryOf (Paper.mk "10.2/x" "T2" "V2" "2024") "2025-01-01")] :=
  claim10_membership_against_loaded_ledger [] [] []
    (Paper.mk "10.2/x" "T1" "V1" "2024") (Paper.mk "10.2/x" "T2" "V2" "2024")
    [] "2025-01-01" (by decide) rfl (by simp)

/-! ### Deduplication lemmas -/

/-- Within the deduplication loop, the output papers carrying a given
non-empty DOI are the first input paper with that DOI — or none at all if
that DOI was already seen. -/
lemma dedup_filter_doi (l : List Paper) (sD sT : List String) (d : String)
    (hd : d ≠ "") :
    (dedupPapers l sD sT).filter (fun p => p.doi == d) =
      if sD.contains d then [] else (l.filter (fun p => p.doi == d)).take 1 := by
  induction l generalizing sD sT with
  | nil => simp [dedupPapers]
  | cons p rest ih =>
    by_cases hpe : p.doi = d
    · subst hpe
      by_cases hc : p.doi ∈ sD
      · simp [dedupPapers, hd, hc, ih]
      · simp [dedupPapers, hd, hc, ih, List.filter_cons]
    · have hne : (p.doi == d) = false := by simp [hpe]
      have hdp : ¬ (d = p.doi) := fun h => hpe h.symm
      by_cases hpd : p.doi = ""
      · have hne2 : ¬ ("" = d) := fun h => hd h.symm
        by_cases hk : ¬ normalizeTitle p.title = "" ∧ normalizeTitle p.title ∉ sT
        · simp [dedupPapers, hpd, hk, List.filter_cons, hne2, ih]
        · simp [dedupPapers, hpd, hk, List.filter_cons, hne2, ih]
      · by_cases hc : p.doi ∈ sD
        · simp [dedupPapers, hpd, hc, List.filter_cons, hne, ih]
        · simp [dedupPapers, hpd, hc, List.filter_cons, hne, ih, hdp]

/-- Within the deduplication loop, the output papers with empty DOI and a
given non-empty normalized title are the first such input paper — or none
at all if that title was already seen. -/
lemma dedup_filter_title (l : List Paper) (sD sT : List String) (t : String)
    (ht : t ≠ "") :
    (dedupPapers l sD sT).filter
        (fun p => p.doi == "" && normalizeTitle p.title == t) =
      if sT.contains t then []
      else (l.filter
        (fun p => p.doi == "" && normalizeTitle p.title == t)).take 1 := by
  induction l generalizing sD sT with
  | nil => simp [dedupPapers]
  | cons p rest ih =>
    by_cases hpd : p.doi = ""
    · by_cases hmt : normalizeTitle p.title = t
      · by_cases hc : t ∈ sT
        · have hcond : ¬ (¬ t = "" ∧ t ∉ sT) := by simp [hc]
          simp [dedupPapers, hpd, hmt, hcond, hc, ih, List.filter_cons]
        · have hcond : ¬ t = "" ∧ t ∉ sT := ⟨ht, hc⟩
          simp [dedupPapers, hpd, hmt, hcond, hc, ih, List.filter_cons]
      · have hne : (normalizeTitle p.title == t) = false := by simp [hmt]
        have htp : ¬ (t = normalizeTitle p.title) := fun h => hmt h.symm
        by_cases hk : ¬ normalizeTitle p.title = "" ∧ normalizeTitle p.title ∉ sT
        · simp [dedupPapers, hpd, hk, List.filter_cons, hne, ih, htp]
        · simp [dedupPapers, hpd, hk, List.filter_cons, hne, ih]
    · have hne : (p.doi == "") = false := by simp [hpd]
      by_cases hc : p.doi ∈ sD
      · simp [dedupPapers, hpd, hc, List.filter_cons, hne, ih]
      · simp [dedupPapers, hpd, hc, List.filter_cons, hne, ih]

/-- The deduplication loop never emits a paper with empty DOI and empty
normalized title: such papers are dropped even on first occurrence. -/
lemma dedup_no_blank_title (l : List Paper) (sD sT : List String) :
    (dedupPapers l sD sT).filter
        (fun p => p.doi == "" && normalizeTitle p.title == "") = [] := by
  induction l generalizing sD sT with
  | nil => simp [dedupPapers]
  | cons p rest ih =>
    by_cases hpd : p.doi = ""
    · by_cases hk : ¬ normalizeTitle p.title = "" ∧ normalizeTitle p.title ∉ sT
      · have hne : (normalizeTitle p.title == "") = false := by simp [hk.1]
        simp [dedupPapers, hpd, hk, List.filter_cons, hne, ih]
      · simp [dedupPapers, hpd, hk, ih]
    · have hne : (p.doi == "") = false := by simp [hpd]
      by_cases hc : p.doi ∈ sD
      · simp [dedupPapers, hpd, hc, List.filter_cons, hne, ih]
      · simp [dedupPapers, hpd, hc, List.filter_cons, hne, ih]

/-- C5 counterexample: two papers with empty DOI and equal (empty)
lowercased-trimmed titles — deduplication drops BOTH, so the earlier one
does not appear in the output and the first occurrence is not kept. -/
theorem claim5_counterexample :
    dedupAll [Paper.mk "" "" "V1" "2024", Paper.mk "" "" "V2" "2024"] = [] ∧
      Paper.mk "" "" "V1" "2024" ∉
        dedupAll [Paper.mk "" "" "V1" "2024", Paper.mk "" "" "V2" "2024"] := by
  decide

/-- C5 amended: for a non-empty DOI d, the deduplicated output restricted
to papers with DOI d is exactly the first input paper with DOI d; for a
non-empty normalized title t, the output restricted to empty-DOI papers
with normalized title t is exactly the first such input paper; papers with
empty DOI and empty normalized title are dropped entirely, first
occurrence included. -/
theorem claim5_dedup_keeps_first_occurrence (l : List Paper) (d t : String)
    (hd : d ≠ "") (ht : t ≠ "") :
    (dedupAll l).filter (fun p => p.doi == d) =
        (l.filter (fun p => p.doi == d)).take 1 ∧
      (dedupAll l).filter (fun p => p.doi == "" && normalizeTitle p.title == t) =
        (l.filter (fun p => p.doi == "" && normalizeTitle p.title == t)).take 1 ∧
      (dedupAll l).filter
        (fun p => p.doi == "" && normalizeTitle p.title == "") = [] := by
  refine ⟨?_, ?_, dedup_no_blank_title l [] []⟩
  · rw [dedupAll, dedup_filter_doi l [] [] d hd]
    rfl
  · rw [dedupAll, dedup_filter_title l [] [] t ht]
    rfl

/-- Witness for C5 on a concrete four-paper list: a repeated DOI with
different titles and a repeated normalized title with empty DOIs. -/
theorem claim5_witness :
    (dedupAll [Paper.mk "10.5/z" "T1" "V1" "2024",
        Paper.mk "10.5/z" "T2" "V2" "2024",
        Paper.mk "" "Same Title" "V3" "2024",
        Paper.mk "" " same title" "V4" "2024"]).filter
        (fun p => p.doi == "10.5/z") =
      ([Paper.mk "10.5/z" "T1" "V1" "2024",
        Paper.mk "10.5/z" "T2" "V2" "2024",
        Paper.mk "" "Same Title" "V3" "2024",
        Paper.mk "" " same title" "V4" "2024"].filter
        (fun p => p.doi == "10.5/z")).take 1 :=
  (claim5_dedup_keeps_first_occurrence
    [Paper.mk "10.5/z" "T1" "V1" "2024",
     Paper.mk "10.5/z" "T2" "V2" "2024",
     Paper.mk "" "Same Title" "V3" "2024",
     Paper.mk "" " same title" "V4" "2024"] "10.5/z" "same title"
    (by decide) (by decide)).1

end ResearchDigest
